import Mathlib

/-!
Shallow embedding of the lab-orchestrator sources (src/lab_orchestrator) for
verifying the natural-language specification.  Python dicts that the code only
ever compares, copies or tests for truthiness are modelled as association
lists of a small value type; `OrderedDict` is modelled as an association list
kept in insertion order (head = oldest); wall-clock readings
(`time.time()` / `datetime.utcnow()`) are explicit integer parameters, and
machine floats of the retry module are modelled as rationals.
-/

/-- A JSON-like scalar value, modelling the values of the Python dicts that
the orchestrator stores and compares. -/
inductive PyV where
  | s : String → PyV
  | b : Bool → PyV
  | i : Int → PyV
deriving DecidableEq

/-- A Python dict with string keys, as an association list. -/
abbrev PyDict := List (String × PyV)

/-- Models the Python expression `x or dict()`: both `None` and the empty
dict are falsy, and both produce the empty dict. -/
def orEmpty (x : Option PyDict) : PyDict :=
  match x with
  | none => []
  | some r => if r = [] then [] else r

/-- An ordered dictionary (Python `OrderedDict` / insertion-ordered `dict`)
with string keys: an association list whose head is the oldest entry. -/
abbrev OD (α : Type) := List (String × α)

/-- `OrderedDict.pop(k, None)`: remove the first entry with key `k`. -/
def odPop {α : Type} : OD α → String → OD α
  | [], _ => []
  | e :: rest, k => if e.1 = k then rest else e :: odPop rest k

/-- Dict assignment `d[k] = v`: replace in place when the key exists
(keeping its position), append otherwise. -/
def odSet {α : Type} : OD α → String → α → OD α
  | [], k, v => [(k, v)]
  | e :: rest, k, v => if e.1 = k then (k, v) :: rest else e :: odSet rest k v

/-- Find the first entry with key `k`. -/
def odFindEntry? {α : Type} : OD α → String → Option (String × α)
  | [], _ => none
  | e :: rest, k => if e.1 = k then some e else odFindEntry? rest k

/-- Dict lookup `d[k]` (as an option). -/
def odFind? {α : Type} (c : OD α) (k : String) : Option α :=
  (odFindEntry? c k).map (fun e => e.2)

/-- `OrderedDict.move_to_end(k)`: move the entry with key `k` to the end. -/
def odMoveToEnd {α : Type} (c : OD α) (k : String) : OD α :=
  match odFindEntry? c k with
  | none => c
  | some e => odPop c k ++ [e]

/-! ## deduplication.py -/

/-- `RequestRecord` (deduplication.py): record of a processed request. -/
structure RequestRecord where
  req_id : String
  timestamp : Int
  device_id : String
  action : String
  result : Option PyDict
  processing : Bool
deriving DecidableEq

/-- State of a `RequestDeduplicator` (deduplication.py): TTL, capacity, the
LRU cache and the processing set (modelled as a list of keys). -/
structure RequestDeduplicator where
  ttl_seconds : Int
  max_size : Nat
  cache : OD RequestRecord
  processing : List String
deriving DecidableEq

/-- `RequestDeduplicator.__init__`: empty cache and processing set. -/
def mkRequestDeduplicator (ttl_seconds : Int) (max_size : Nat) : RequestDeduplicator :=
  ⟨ttl_seconds, max_size, [], []⟩

/-- `RequestDeduplicator._cleanup_expired`: scan the cache from the oldest
entry collecting keys while `now - timestamp > ttl`, breaking at the first
entry that is not expired; then pop each collected key from the cache and
discard it from the processing set. -/
def cleanup_expired (now ttl : Int) (cache : OD RequestRecord) (processing : List String) :
    OD RequestRecord × List String :=
  let expired_keys :=
    (cache.takeWhile (fun e => decide (now - e.2.timestamp > ttl))).map (fun e => e.1)
  (expired_keys.foldl (fun c k => odPop c k) cache,
   expired_keys.foldl (fun p k => p.filter (fun x => x ≠ k)) processing)

/-- `RequestDeduplicator.is_duplicate`: run the expiry sweep, then look the
req-id up; on a hit move it to the LRU end and report a duplicate only when
the stored (device_id, action) pair matches; a mismatching pair is allowed
through (returns `(false, none)`, as for an unknown req-id). -/
def is_duplicate (now : Int) (req_id device_id action : String)
    (st : RequestDeduplicator) : (Bool × Option RequestRecord) × RequestDeduplicator :=
  let cp := cleanup_expired now st.ttl_seconds st.cache st.processing
  let st1 : RequestDeduplicator := { st with cache := cp.1, processing := cp.2 }
  match odFind? st1.cache req_id with
  | some r0 =>
    let st2 : RequestDeduplicator := { st1 with cache := odMoveToEnd st1.cache req_id }
    if r0.device_id = device_id ∧ r0.action = action then
      ((true, some r0), st2)
    else
      ((false, none), st2)
  | none => ((false, none), st1)

/-- `RequestDeduplicator._enforce_max_size`: while the cache is over
capacity, pop the oldest entry and discard its key from the processing set. -/
def enforce_max_size : OD RequestRecord → List String → Nat → OD RequestRecord × List String
  | [], processing, _ => ([], processing)
  | e :: rest, processing, max_size =>
    if rest.length + 1 > max_size then
      enforce_max_size rest (processing.filter (fun x => x ≠ e.1)) max_size
    else
      (e :: rest, processing)

/-- `RequestDeduplicator.mark_processing`: refuse when already processing;
otherwise add to the processing set, store a fresh processing record
(dict assignment keeps the position of an existing key) and enforce the
capacity bound. -/
def mark_processing (now : Int) (req_id device_id action : String)
    (st : RequestDeduplicator) : Bool × RequestDeduplicator :=
  if req_id ∈ st.processing then
    (false, st)
  else
    let r0 : RequestRecord := ⟨req_id, now, device_id, action, none, true⟩
    let ep := enforce_max_size (odSet st.cache req_id r0) (req_id :: st.processing) st.max_size
    (true, { st with cache := ep.1, processing := ep.2 })

/-- `RequestDeduplicator.mark_completed`: discard from the processing set;
when the req-id is cached, clear the processing flag, store
`result or dict()` as the result, refresh the timestamp and move the entry
to the LRU end. -/
def mark_completed (now : Int) (req_id : String) (result : Option PyDict)
    (st : RequestDeduplicator) : RequestDeduplicator :=
  let proc1 := st.processing.filter (fun x => x ≠ req_id)
  match odFind? st.cache req_id with
  | some r0 =>
    let r1 : RequestRecord :=
      { r0 with processing := false, result := some (orEmpty result), timestamp := now }
    { st with processing := proc1, cache := odMoveToEnd (odSet st.cache req_id r1) req_id }
  | none => { st with processing := proc1 }

/-- `RequestDeduplicator.mark_failed`: like `mark_completed` but the stored
result is the error dict. -/
def mark_failed (now : Int) (req_id : String) (error : String)
    (st : RequestDeduplicator) : RequestDeduplicator :=
  let proc1 := st.processing.filter (fun x => x ≠ req_id)
  match odFind? st.cache req_id with
  | some r0 =>
    let r1 : RequestRecord :=
      { r0 with processing := false,
                result := some [("error", PyV.s error), ("success", PyV.b false)],
                timestamp := now }
    { st with processing := proc1, cache := odMoveToEnd (odSet st.cache req_id r1) req_id }
  | none => { st with processing := proc1 }

/-- The placeholder response returned for an in-flight duplicate. -/
def processingResponse : PyDict :=
  [("status", PyV.s "processing"),
   ("message", PyV.s "Request is currently being processed")]

/-- Module-level `is_duplicate_request` (deduplication.py): calls
`is_duplicate`; on a hit, a processing record yields the placeholder
response, and a stored result is returned only when it is truthy
(`elif record.result:` — the empty dict falls through to `(false, none)`). -/
def is_duplicate_request (now : Int) (req_id device_id action : String)
    (st : RequestDeduplicator) : (Bool × Option PyDict) × RequestDeduplicator :=
  let r := is_duplicate now req_id device_id action st
  match r.1 with
  | (true, some r0) =>
    if r0.processing then ((true, some processingResponse), r.2)
    else
      match r0.result with
      | some res => if res = [] then ((false, none), r.2) else ((true, some res), r.2)
      | none => ((false, none), r.2)
  | _ => ((false, none), r.2)

/-- One operation on the deduplication cache, for stating invariants over
arbitrary operation sequences. -/
inductive DedupOp where
  | check (now : Int) (req_id device_id action : String)
  | beginProcessing (now : Int) (req_id device_id action : String)
  | complete (now : Int) (req_id : String) (result : Option PyDict)
  | fail (now : Int) (req_id : String) (error : String)

/-- Apply one cache operation, keeping only the resulting state. -/
def applyOp (st : RequestDeduplicator) : DedupOp → RequestDeduplicator
  | DedupOp.check now req_id device_id action => (is_duplicate now req_id device_id action st).2
  | DedupOp.beginProcessing now req_id device_id action =>
      (mark_processing now req_id device_id action st).2
  | DedupOp.complete now req_id result => mark_completed now req_id result st
  | DedupOp.fail now req_id error => mark_failed now req_id error st

/-- Run a sequence of cache operations from a state. -/
def runOps (ops : List DedupOp) (st : RequestDeduplicator) : RequestDeduplicator :=
  ops.foldl applyOp st

/-! ## db.py -/

/-- A row of the `commands` table (db.py `Command`), with UTC times as
integer milliseconds since the epoch. -/
structure Command where
  req_id : String
  device_id : String
  module_name : String
  actor : String
  action : String
  params : PyDict
  status : String
  dispatched_at : Option Int
  acked_at : Option Int
  success : Option Bool
  error_message : Option String
  response_details : Option PyDict
  duration_ms : Option Int
deriving DecidableEq

/-- `DatabaseManager.record_command_dispatch`: insert a new row with
status `dispatched`, `dispatched_at` set to the current time and the
column defaults for the remaining fields. -/
def record_command_dispatch (now : Int) (req_id device_id module_name actor action : String)
    (params : PyDict) (table : List Command) : Command × List Command :=
  let c : Command :=
    ⟨req_id, device_id, module_name, actor, action, params, "dispatched",
     some now, none, none, none, some [], none⟩
  (c, table ++ [c])

/-- The field updates `record_command_ack` performs on the matched row:
status from `success`, `acked_at` set to the current time, the ack fields
overwritten, and `duration_ms` recomputed from `dispatched_at` when that
is set (kept unchanged otherwise). -/
def ackUpdate (now : Int) (success : Bool) (error_message : Option String)
    (response_details : Option PyDict) (c : Command) : Command :=
  { c with
    status := if success then "acked" else "failed",
    acked_at := some now,
    success := some success,
    error_message := error_message,
    response_details := some (orEmpty response_details),
    duration_ms :=
      match c.dispatched_at with
      | some d => some (now - d)
      | none => c.duration_ms }

/-- `DatabaseManager.record_command_ack`: find the first row with the given
req-id; return `none` leaving the table unchanged when there is none,
otherwise overwrite the row via `ackUpdate` and return the updated row. -/
def record_command_ack (now : Int) (req_id : String) (success : Bool)
    (error_message : Option String) (response_details : Option PyDict) :
    List Command → Option Command × List Command
  | [] => (none, [])
  | c :: rest =>
    if c.req_id = req_id then
      (some (ackUpdate now success error_message response_details c),
       ackUpdate now success error_message response_details c :: rest)
    else
      ((record_command_ack now req_id success error_message response_details rest).1,
       c :: (record_command_ack now req_id success error_message response_details rest).2)

/-- A row of the `heartbeats` table (only the columns cleanup touches). -/
structure HeartbeatRow where
  device_id : String
  online : Bool
  timestamp : Int
deriving DecidableEq

/-- A row of the `module_status` table (only the columns cleanup touches). -/
structure ModuleStatusRow where
  device_id : String
  module_name : String
  state : String
  timestamp : Int
deriving DecidableEq

/-- A row of the `events` table (only the columns cleanup touches). -/
structure EventRow where
  event_type : String
  device_id : Option String
  timestamp : Int
deriving DecidableEq

/-- The persisted tables that `cleanup_old_records` reads or writes. -/
structure DBState where
  heartbeats : List HeartbeatRow
  module_status : List ModuleStatusRow
  events : List EventRow
  commands : List Command
deriving DecidableEq

/-- Milliseconds per day. -/
def msPerDay : Int := 86400000

/-- `datetime.utcnow().replace(hour=0, minute=0, second=0, microsecond=0)`:
truncate a UTC time to the start of its day. -/
def startOfDayUtc (t : Int) : Int := t - t % msPerDay

/-- `DatabaseManager.cleanup_old_records` as the source executes: the module
does `from datetime import datetime`, so the name `datetime` is the class
and the expression `datetime.timedelta(days=days)` on db.py line 280 raises
`AttributeError` before any session is opened; the function always raises
and never deletes a row. -/
def cleanup_old_records (now : Int) (days : Nat) (st : DBState) : Except String DBState :=
  let _ := startOfDayUtc now
  let _ := days
  let _ := st
  Except.error "AttributeError: type object datetime has no attribute timedelta"

/-- The retention cutoff the source intends and the spec states:
`start_of_today_utc - days`. -/
def cleanup_cutoff (now : Int) (days : Nat) : Int :=
  startOfDayUtc now - days * msPerDay

/-- Modelled from the spec: the intended `cleanup_old(days)` of the
persistence gateway (the source slips on `datetime.timedelta`, which the
spec notes and respecifies) — delete rows with `timestamp < cutoff` from
heartbeats, module_status and events; never delete from commands. -/
def cleanup_old_records_intended (now : Int) (days : Nat) (st : DBState) : DBState :=
  { heartbeats := st.heartbeats.filter (fun h => ¬ h.timestamp < cleanup_cutoff now days),
    module_status := st.module_status.filter (fun m => ¬ m.timestamp < cleanup_cutoff now days),
    events := st.events.filter (fun e => ¬ e.timestamp < cleanup_cutoff now days),
    commands := st.commands }

/-! ## dead_letter.py -/

/-- `DeadLetterMessage` (dead_letter.py), with the ISO timestamps as
integer milliseconds. -/
structure DeadLetterMessage where
  id : String
  original_topic : String
  payload : PyDict
  failure_reason : String
  error_message : String
  device_id : Option String
  module_name : Option String
  req_id : Option String
  retry_count : Int
  first_failed_at : Int
  last_failed_at : Int
deriving DecidableEq

/-- `DeadLetterQueue.__init__` default for `max_retries`. -/
def maxRetriesDefault : Int := 3

/-- Observable outcome of `DeadLetterQueue.retry_message`: the returned
boolean, the message republished on the bus (topic and payload) if any,
the refusal reason if refused, and the persisted store afterwards. -/
structure RetryOutcome where
  success : Bool
  published : Option (String × PyDict)
  refusal : Option String
  store : OD DeadLetterMessage
deriving DecidableEq

/-- `DeadLetterQueue.retry_message`, over a store of persisted DLQ records.
Modelled from the spec: the persistence helpers `_get_dlq_message`,
`_update_dlq_message` and `_store_dlq_message` are placeholders in
dead_letter.py (a gap spec section 9 records), so the store is an
association list from dlq-id to record, per the spec's DeadLetterRecord.
The control flow is the source's: unknown id → refuse; `retry_count`
at or above the max → refuse with reason `retry_exhausted` (the value of
`FailureReason.RETRY_EXHAUSTED`), leaving the store unchanged; otherwise
republish the original payload to the original topic, increment
`retry_count`, refresh `last_failed_at` and persist the update. -/
def retry_message (now : Int) (max_retries : Int) (store : OD DeadLetterMessage)
    (dlq_id : String) : RetryOutcome :=
  match odFind? store dlq_id with
  | none => ⟨false, none, none, store⟩
  | some msg =>
    if msg.retry_count ≥ max_retries then
      ⟨false, none, some "retry_exhausted", store⟩
    else
      let msg1 : DeadLetterMessage :=
        { msg with retry_count := msg.retry_count + 1, last_failed_at := now }
      ⟨true, some (msg.original_topic, msg.payload), none, odSet store dlq_id msg1⟩

/-! ## retry.py -/

/-- `RetryConfig` (retry.py), with the float parameters as rationals. -/
structure RetryConfig where
  max_attempts : Nat
  base_delay : ℚ
  max_delay : ℚ
  exponential_base : ℚ
  jitter : Bool
  jitter_factor : ℚ
deriving DecidableEq

/-- The delay before jitter: `min(base_delay * exponential_base ** (attempt - 1),
max_delay)`. -/
def rawDelay (cfg : RetryConfig) (attempt : Nat) : ℚ :=
  min (cfg.base_delay * cfg.exponential_base ^ (attempt - 1)) cfg.max_delay

/-- `RetryConfig.calculate_delay`: the capped exponential delay, plus — when
jitter is enabled — a jitter summand `j` clamped at zero.  The random draw
`random.uniform(-jitter_range, jitter_range)` is modelled by the explicit
parameter `j`, constrained in the theorems to `abs j ≤ jitter_factor * delay`. -/
def calculate_delay (cfg : RetryConfig) (attempt : Nat) (j : ℚ) : ℚ :=
  if cfg.jitter then max 0 (rawDelay cfg attempt + j) else rawDelay cfg attempt

/-! ## schema.py -/

/-- A JSON value, modelling the `params` map of the command envelope.
JSON strings are lists of characters. -/
inductive Json where
  | null : Json
  | b : Bool → Json
  | i : Int → Json
  | s : List Char → Json
  | arr : List Json → Json
  | obj : List (List Char × Json) → Json

/-- The opening curly brace character. -/
def lbChar : Char := Char.ofNat 123

/-- The closing curly brace character. -/
def rbChar : Char := Char.ofNat 125

/-- One hexadecimal digit, lower case. -/
def hexDigit (n : Nat) : Char :=
  if n < 10 then Char.ofNat (48 + n) else Char.ofNat (87 + n)

/-- Four hexadecimal digits. -/
def hex4 (n : Nat) : List Char :=
  [hexDigit (n / 4096 % 16), hexDigit (n / 256 % 16), hexDigit (n / 16 % 16), hexDigit (n % 16)]

/-- How `json.dumps` (default settings, `ensure_ascii=True`) writes one
character of a JSON string: backslash, double quote and everything outside
printable ASCII are escaped, with the usual two-character escapes for the
common control characters and `\uXXXX` (a surrogate pair beyond the basic
plane) for the rest. -/
def escapeChar (c : Char) : List Char :=
  if c = '"' then ['\\', '"']
  else if c = '\\' then ['\\', '\\']
  else if c = Char.ofNat 8 then ['\\', 'b']
  else if c = Char.ofNat 9 then ['\\', 't']
  else if c = Char.ofNat 10 then ['\\', 'n']
  else if c = Char.ofNat 12 then ['\\', 'f']
  else if c = Char.ofNat 13 then ['\\', 'r']
  else if c.toNat < 32 ∨ c.toNat > 126 then
    if c.toNat ≤ 65535 then '\\' :: 'u' :: hex4 c.toNat
    else
      ('\\' :: 'u' :: hex4 (55296 + (c.toNat - 65536) / 1024)) ++
      ('\\' :: 'u' :: hex4 (56320 + (c.toNat - 65536) % 1024))
  else [c]

/-- Escape a whole JSON string body. -/
def jsonEscape (cs : List Char) : List Char :=
  (cs.map escapeChar).flatten

/-- The characters of a decimal integer. -/
def intChars (n : Int) : List Char :=
  if n < 0 then '-' :: Nat.toDigits 10 n.natAbs else Nat.toDigits 10 n.natAbs

mutual

/-- `json.dumps` with its default settings (separators `", "` and `": "`,
`ensure_ascii=True`), as the characters of the produced text.  Because
`ensure_ascii` keeps the output ASCII, the UTF-8 byte count the validator
measures equals the character count. -/
def dumps : Json → List Char
  | Json.null => "null".data
  | Json.b true => "true".data
  | Json.b false => "false".data
  | Json.i n => intChars n
  | Json.s cs => '"' :: (jsonEscape cs ++ ['"'])
  | Json.arr l => '[' :: (dumpsArr l ++ [']'])
  | Json.obj l => lbChar :: (dumpsObj l ++ [rbChar])

/-- The element list of a JSON array, joined with `", "`. -/
def dumpsArr : List Json → List Char
  | [] => []
  | [x] => dumps x
  | x :: y :: ys => dumps x ++ (',' :: ' ' :: dumpsArr (y :: ys))

/-- The member list of a JSON object, joined with `", "`, each member a
quoted key, `": "` and the value. -/
def dumpsObj : List (List Char × Json) → List Char
  | [] => []
  | [(k, v)] => ('"' :: (jsonEscape k ++ ['"'])) ++ (':' :: ' ' :: dumps v)
  | (k, v) :: x :: xs =>
    (('"' :: (jsonEscape k ++ ['"'])) ++ (':' :: ' ' :: dumps v)) ++
    (',' :: ' ' :: dumpsObj (x :: xs))

end

/-- The serialized size of a params map: `len(json.dumps(v).encode("utf-8"))`;
the output being ASCII, this is the character count of `dumps`. -/
def serializedSize (v : Json) : Nat := (dumps v).length

/-- `MQTTCommandEnvelope.validate_params_size` (schema.py): reject a params
map whose serialization exceeds `64 * 1024` bytes, accept it unchanged
otherwise. -/
def validate_params_size (v : Json) : Except String Json :=
  if serializedSize v > 64 * 1024 then Except.error "Params too large (>64KB)"
  else Except.ok v

/-- A params map serializing to exactly 64 KiB: one key `"k"` whose value
is a string of 65527 letters. -/
def params64 : Json := Json.obj [("k".data, Json.s (List.replicate 65527 'a'))]

/-- A params map serializing to 64 KiB plus one byte. -/
def params64p1 : Json := Json.obj [("k".data, Json.s (List.replicate 65528 'a'))]

/-! ## Helper lemmas about the ordered-dictionary model -/

lemma odPop_length_le {α : Type} (c : OD α) (k : String) :
    (odPop c k).length ≤ c.length := by
  induction c with
  | nil => simp [odPop]
  | cons e rest ih =>
    by_cases h : e.1 = k
    · simp [odPop, h]
    · simp only [odPop, if_neg h, List.length_cons]
      omega

lemma odFindEntry?_key {α : Type} {c : OD α} {k : String} {e : String × α}
    (h : odFindEntry? c k = some e) : e.1 = k := by
  induction c with
  | nil => simp [odFindEntry?] at h
  | cons f rest ih =>
    by_cases hf : f.1 = k
    · simp only [odFindEntry?, if_pos hf] at h
      cases h
      exact hf
    · simp only [odFindEntry?, if_neg hf] at h
      exact ih h

lemma odPop_length_of_findEntry {α : Type} {c : OD α} {k : String} {e : String × α}
    (h : odFindEntry? c k = some e) : (odPop c k).length + 1 = c.length := by
  induction c with
  | nil => simp [odFindEntry?] at h
  | cons f rest ih =>
    by_cases hf : f.1 = k
    · simp [odPop, hf]
    · simp only [odFindEntry?, if_neg hf] at h
      simp only [odPop, if_neg hf, List.length_cons]
      have := ih h
      omega

lemma odMoveToEnd_length_le {α : Type} (c : OD α) (k : String) :
    (odMoveToEnd c k).length ≤ c.length := by
  unfold odMoveToEnd
  cases h : odFindEntry? c k with
  | none => exact le_rfl
  | some e =>
    have := odPop_length_of_findEntry h
    simp only [List.length_append, List.length_singleton]
    omega

lemma odSet_length_le {α : Type} (c : OD α) (k : String) (v : α) :
    (odSet c k v).length ≤ c.length + 1 := by
  induction c with
  | nil => simp [odSet]
  | cons e rest ih =>
    by_cases h : e.1 = k
    · simp [odSet, h]
    · simp only [odSet, if_neg h, List.length_cons]
      omega

lemma odSet_length_of_findEntry {α : Type} {c : OD α} {k : String} {e : String × α} (v : α)
    (h : odFindEntry? c k = some e) : (odSet c k v).length = c.length := by
  induction c with
  | nil => simp [odFindEntry?] at h
  | cons f rest ih =>
    by_cases hf : f.1 = k
    · simp [odSet, hf]
    · simp only [odFindEntry?, if_neg hf] at h
      simp only [odSet, if_neg hf, List.length_cons]
      have := ih h
      omega

lemma odFindEntry?_odSet_self {α : Type} (c : OD α) (k : String) (v : α) :
    odFindEntry? (odSet c k v) k = some (k, v) := by
  induction c with
  | nil => simp [odSet, odFindEntry?]
  | cons e rest ih =>
    by_cases h : e.1 = k
    · simp [odSet, odFindEntry?, h]
    · simp [odSet, odFindEntry?, h, ih]

lemma odFind?_odSet_self {α : Type} (c : OD α) (k : String) (v : α) :
    odFind? (odSet c k v) k = some v := by
  simp [odFind?, odFindEntry?_odSet_self]

lemma mem_odPop_append_of_findEntry {α : Type} {c : OD α} {k : String} {e : String × α}
    (h : odFindEntry? c k = some e) (x : String × α) :
    x ∈ odPop c k ++ [e] ↔ x ∈ c := by
  induction c with
  | nil => simp [odFindEntry?] at h
  | cons f rest ih =>
    by_cases hf : f.1 = k
    · simp only [odFindEntry?, if_pos hf] at h
      cases h
      simp only [odPop, if_pos hf, List.mem_append, List.mem_singleton, List.mem_cons]
      tauto
    · simp only [odFindEntry?, if_neg hf] at h
      simp only [odPop, if_neg hf, List.cons_append, List.mem_cons, ih h]

lemma mem_odMoveToEnd {α : Type} (c : OD α) (k : String) (x : String × α) :
    x ∈ odMoveToEnd c k ↔ x ∈ c := by
  unfold odMoveToEnd
  cases h : odFindEntry? c k with
  | none => exact Iff.rfl
  | some e => exact mem_odPop_append_of_findEntry h x

/-! ## Helper lemmas about the expiry sweep and the capacity bound -/

lemma foldl_odPop_takeWhile {α : Type} (q : String × α → Bool) :
    ∀ c : OD α,
      ((c.takeWhile q).map (fun e => e.1)).foldl (fun c k => odPop c k) c = c.dropWhile q := by
  intro c
  induction c with
  | nil => simp
  | cons e rest ih =>
    by_cases hq : q e = true
    · rw [List.takeWhile_cons_of_pos hq, List.dropWhile_cons_of_pos hq]
      simp only [List.map_cons, List.foldl_cons]
      rw [show odPop (e :: rest) e.1 = rest from by simp [odPop]]
      exact ih
    · rw [List.takeWhile_cons_of_neg (by simpa using hq),
          List.dropWhile_cons_of_neg (by simpa using hq)]
      simp

lemma cleanup_expired_fst (now ttl : Int) (cache : OD RequestRecord) (processing : List String) :
    (cleanup_expired now ttl cache processing).1
      = cache.dropWhile (fun e => decide (now - e.2.timestamp > ttl)) := by
  unfold cleanup_expired
  exact foldl_odPop_takeWhile _ cache

lemma head?_dropWhile_not {α : Type} (q : α → Bool) :
    ∀ (l : List α) (x : α), (l.dropWhile q).head? = some x → q x = false := by
  intro l
  induction l with
  | nil => intro x hx; simp at hx
  | cons e rest ih =>
    intro x hx
    by_cases hq : q e = true
    · rw [List.dropWhile_cons_of_pos hq] at hx
      exact ih x hx
    · rw [List.dropWhile_cons_of_neg (by simpa using hq)] at hx
      simp only [List.head?_cons, Option.some.injEq] at hx
      subst hx
      simpa using hq

lemma enforce_max_size_length_le :
    ∀ (c : OD RequestRecord) (p : List String) (m : Nat),
      (enforce_max_size c p m).1.length ≤ m := by
  intro c
  induction c with
  | nil => intro p m; simp [enforce_max_size]
  | cons e rest ih =>
    intro p m
    rw [enforce_max_size]
    by_cases h : rest.length + 1 > m
    · rw [if_pos h]
      exact ih _ m
    · rw [if_neg h]
      simpa using Nat.le_of_not_lt h

lemma odFindEntry?_eq_of_odFind? {α : Type} {c : OD α} {k : String} {v : α}
    (h : odFind? c k = some v) : odFindEntry? c k = some (k, v) := by
  unfold odFind? at h
  cases he : odFindEntry? c k with
  | none => rw [he] at h; simp at h
  | some e =>
    rw [he] at h
    have hk := odFindEntry?_key he
    cases e with
    | mk a b =>
      simp only [Option.map_some', Option.some.injEq] at h
      subst h
      have ha : a = k := hk
      subst ha
      rfl

lemma is_duplicate_snd_max (now : Int) (r d a : String) (st : RequestDeduplicator) :
    ((is_duplicate now r d a st).2).max_size = st.max_size := by
  unfold is_duplicate
  cases h : odFind? (cleanup_expired now st.ttl_seconds st.cache st.processing).1 r with
  | none => simp [h]
  | some r0 =>
    by_cases hm : r0.device_id = d ∧ r0.action = a <;> simp [h, hm]

lemma is_duplicate_cache_mem (now : Int) (r d a : String) (st : RequestDeduplicator)
    (x : String × RequestRecord) :
    x ∈ ((is_duplicate now r d a st).2).cache
      ↔ x ∈ (cleanup_expired now st.ttl_seconds st.cache st.processing).1 := by
  unfold is_duplicate
  cases h : odFind? (cleanup_expired now st.ttl_seconds st.cache st.processing).1 r with
  | none => simp [h]
  | some r0 =>
    by_cases hm : r0.device_id = d ∧ r0.action = a <;> simp [h, hm, mem_odMoveToEnd]

lemma is_duplicate_snd_cache_le (now : Int) (r d a : String) (st : RequestDeduplicator) :
    ((is_duplicate now r d a st).2).cache.length ≤ st.cache.length := by
  have hc : (cleanup_expired now st.ttl_seconds st.cache st.processing).1.length
      ≤ st.cache.length := by
    rw [cleanup_expired_fst]
    exact (List.dropWhile_sublist _).length_le
  unfold is_duplicate
  cases h : odFind? (cleanup_expired now st.ttl_seconds st.cache st.processing).1 r with
  | none => simpa [h] using hc
  | some r0 =>
    by_cases hm : r0.device_id = d ∧ r0.action = a
    · simp only [h, if_pos hm]
      exact le_trans (odMoveToEnd_length_le _ _) hc
    · simp only [h, if_neg hm]
      exact le_trans (odMoveToEnd_length_le _ _) hc

lemma mark_processing_snd_max (now : Int) (r d a : String) (st : RequestDeduplicator) :
    ((mark_processing now r d a st).2).max_size = st.max_size := by
  unfold mark_processing
  by_cases hp : r ∈ st.processing
  · simp [hp]
  · simp [hp]

lemma mark_processing_snd_cache_le (now : Int) (r d a : String) (st : RequestDeduplicator)
    (h : st.cache.length ≤ st.max_size) :
    ((mark_processing now r d a st).2).cache.length ≤ st.max_size := by
  unfold mark_processing
  by_cases hp : r ∈ st.processing
  · simpa [hp] using h
  · simp only [hp, if_neg, ite_false]
    simpa using enforce_max_size_length_le _ _ _

lemma mark_completed_max (now : Int) (r : String) (res : Option PyDict)
    (st : RequestDeduplicator) : (mark_completed now r res st).max_size = st.max_size := by
  unfold mark_completed
  cases h : odFind? st.cache r <;> simp [h]

lemma mark_completed_cache_le (now : Int) (r : String) (res : Option PyDict)
    (st : RequestDeduplicator) :
    (mark_completed now r res st).cache.length ≤ st.cache.length := by
  unfold mark_completed
  cases h : odFind? st.cache r with
  | none => simp [h]
  | some r0 =>
    have he := odFindEntry?_eq_of_odFind? h
    simp only [h]
    exact le_trans (odMoveToEnd_length_le _ _)
      (le_of_eq (odSet_length_of_findEntry _ he))

lemma mark_failed_max (now : Int) (r err : String) (st : RequestDeduplicator) :
    (mark_failed now r err st).max_size = st.max_size := by
  unfold mark_failed
  cases h : odFind? st.cache r <;> simp [h]

lemma mark_failed_cache_le (now : Int) (r err : String) (st : RequestDeduplicator) :
    (mark_failed now r err st).cache.length ≤ st.cache.length := by
  unfold mark_failed
  cases h : odFind? st.cache r with
  | none => simp [h]
  | some r0 =>
    have he := odFindEntry?_eq_of_odFind? h
    simp only [h]
    exact le_trans (odMoveToEnd_length_le _ _)
      (le_of_eq (odSet_length_of_findEntry _ he))

lemma applyOp_max (st : RequestDeduplicator) (op : DedupOp) :
    (applyOp st op).max_size = st.max_size := by
  cases op with
  | check now r d a => exact is_duplicate_snd_max now r d a st
  | beginProcessing now r d a => exact mark_processing_snd_max now r d a st
  | complete now r res => exact mark_completed_max now r res st
  | fail now r err => exact mark_failed_max now r err st

lemma applyOp_inv (st : RequestDeduplicator) (op : DedupOp)
    (h : st.cache.length ≤ st.max_size) :
    (applyOp st op).cache.length ≤ (applyOp st op).max_size := by
  rw [applyOp_max]
  cases op with
  | check now r d a => exact le_trans (is_duplicate_snd_cache_le now r d a st) h
  | beginProcessing now r d a => exact mark_processing_snd_cache_le now r d a st h
  | complete now r res => exact le_trans (mark_completed_cache_le now r res st) h
  | fail now r err => exact le_trans (mark_failed_cache_le now r err st) h

lemma runOps_inv : ∀ (ops : List DedupOp) (st : RequestDeduplicator),
    st.cache.length ≤ st.max_size →
    (runOps ops st).cache.length ≤ (runOps ops st).max_size := by
  intro ops
  induction ops with
  | nil => intro st h; simpa [runOps] using h
  | cons op rest ih =>
    intro st h
    simp only [runOps, List.foldl_cons]
    exact ih (applyOp st op) (applyOp_inv st op h)

lemma runOps_max : ∀ (ops : List DedupOp) (st : RequestDeduplicator),
    (runOps ops st).max_size = st.max_size := by
  intro ops
  induction ops with
  | nil => intro st; rfl
  | cons op rest ih =>
    intro st
    simp only [runOps, List.foldl_cons]
    rw [show (rest.foldl applyOp (applyOp st op)) = runOps rest (applyOp st op) from rfl,
        ih (applyOp st op), applyOp_max]

/-! ## Claim theorems: deduplication cache -/

/-- C4: over every sequence of cache operations (`is_duplicate`,
`mark_processing`, `mark_completed`, `mark_failed`) run from a
`RequestDeduplicator` constructed with capacity `cap`, the number of cached
entries is at most `cap` after every operation completes. -/
theorem dedup_cache_size_bounded (ops : List DedupOp) (ttl : Int) (cap : Nat) :
    (runOps ops (mkRequestDeduplicator ttl cap)).cache.length ≤ cap := by
  have h := runOps_inv ops (mkRequestDeduplicator ttl cap)
    (by simp [mkRequestDeduplicator])
  rwa [runOps_max] at h

/-- C2 counterexample: with `("r1", "d1", "a1")` cached, the duplicate check
for `"r1"` with the different device `"d2"` returns `(false, none)` — the
very same "fresh" result it returns for the unknown req-id `"rX"` — rather
than reporting a conflict. -/
theorem conflicting_pair_reported_fresh :
    (is_duplicate 1 "r1" "d2" "a1"
        (mark_processing 0 "r1" "d1" "a1" (mkRequestDeduplicator 300 10000)).2).1
      = (false, none)
    ∧ (is_duplicate 1 "rX" "d2" "a1"
        (mark_processing 0 "r1" "d1" "a1" (mkRequestDeduplicator 300 10000)).2).1
      = (false, none) := by decide

/-- C2 (amended): when the duplicate check finds a cached record for the
req-id whose (device_id, action) differs from the one supplied, it reports
the request as fresh — `(false, none)`, exactly as for an unknown req-id —
and allows it to proceed (the source only logs a warning). -/
theorem mismatch_req_id_allowed_through (now : Int) (req dev act : String)
    (st : RequestDeduplicator) (r0 : RequestRecord)
    (hfind : odFind? (cleanup_expired now st.ttl_seconds st.cache st.processing).1 req
      = some r0)
    (hdiff : ¬(r0.device_id = dev ∧ r0.action = act)) :
    (is_duplicate now req dev act st).1 = (false, none) := by
  unfold is_duplicate
  simp only [hfind, if_neg hdiff]

theorem mismatch_req_id_allowed_through_witness :
    (is_duplicate 1 "r1" "d2" "a1"
        (mark_processing 0 "r1" "d1" "a1" (mkRequestDeduplicator 300 5)).2).1
      = (false, none) :=
  mismatch_req_id_allowed_through 1 "r1" "d2" "a1"
    (mark_processing 0 "r1" "d1" "a1" (mkRequestDeduplicator 300 5)).2
    ⟨"r1", 0, "d1", "a1", none, true⟩ (by decide) (by decide)

/-- C3 (code bug): a request completed with an empty result is not served
from the cache — `is_duplicate_request` falls through `elif record.result:`
(the empty dict is falsy) and reports `(false, none)`, so the caller
publishes again; with a non-empty cached result the same call returns the
cached result, as the claim expects for every result. -/
theorem empty_result_treated_as_fresh :
    (is_duplicate_request 10 "r1" "d" "a"
        (mark_completed 5 "r1" (some [])
          (mark_processing 0 "r1" "d" "a" (mkRequestDeduplicator 300 10000)).2)).1
      = (false, none)
    ∧ (is_duplicate_request 10 "r1" "d" "a"
        (mark_completed 5 "r1" (some [("ok", PyV.b true)])
          (mark_processing 0 "r1" "d" "a" (mkRequestDeduplicator 300 10000)).2)).1
      = (true, some [("ok", PyV.b true)]) := by decide

/-- C5 counterexample: a sequence of cache operations after which an
`is_duplicate` call at time 303 leaves the entry `"B"` in the cache even
though its timestamp 0 is older than 303 minus the TTL 300: the LRU move of
`"B"` (without a timestamp refresh) put the fresher `"A"` in front of it, and
the sweep stops at `"A"`. -/
theorem expired_entry_survives_sweep :
    odFind?
        ((is_duplicate 303 "X" "dX" "aX"
            (is_duplicate 6 "B" "dB" "aB"
                (mark_processing 5 "A" "dA" "aA"
                  (mark_processing 0 "B" "dB" "aB" (mkRequestDeduplicator 300 10)).2).2).2).2).cache
        "B"
      = some ⟨"B", 0, "dB", "aB", none, true⟩
    ∧ (303 : Int) - (0 : Int) > (300 : Int) := by decide

/-- C5 (amended): the expiry sweep run by every `is_duplicate` call removes
exactly a fully-expired leading segment of the LRU order and stops at the
first unexpired entry: the swept entries were all expired, the surviving
cache starts (if nonempty) with an unexpired entry, and `is_duplicate` never
removes an unexpired entry — but an expired entry positioned behind an
unexpired one survives the sweep. -/
theorem sweep_removes_expired_lru_head_only (now : Int) (req dev act : String)
    (st : RequestDeduplicator) :
    (∃ dropped,
        st.cache = dropped ++ (cleanup_expired now st.ttl_seconds st.cache st.processing).1 ∧
          ∀ e ∈ dropped, now - e.2.timestamp > st.ttl_seconds) ∧
      (∀ e, (cleanup_expired now st.ttl_seconds st.cache st.processing).1.head? = some e →
          now - e.2.timestamp ≤ st.ttl_seconds) ∧
      ∀ e, e ∈ st.cache → e ∉ ((is_duplicate now req dev act st).2).cache →
          now - e.2.timestamp > st.ttl_seconds := by
  refine ⟨⟨st.cache.takeWhile (fun e => decide (now - e.2.timestamp > st.ttl_seconds)),
    ?_, ?_⟩, ?_, ?_⟩
  · rw [cleanup_expired_fst]
    exact (List.takeWhile_append_dropWhile _ _).symm
  · intro e he
    have := List.mem_takeWhile_imp he
    simpa using this
  · intro e he
    rw [cleanup_expired_fst] at he
    have := head?_dropWhile_not _ _ _ he
    simp only [decide_eq_false_iff_not, not_lt] at this
    exact this
  · intro e he hne
    by_contra hexp
    push_neg at hexp
    apply hne
    rw [is_duplicate_cache_mem, cleanup_expired_fst]
    have hmem : e ∈ st.cache.takeWhile (fun e => decide (now - e.2.timestamp > st.ttl_seconds))
        ++ st.cache.dropWhile (fun e => decide (now - e.2.timestamp > st.ttl_seconds)) := by
      rw [List.takeWhile_append_dropWhile]
      exact he
    rcases List.mem_append.mp hmem with h1 | h2
    · have := List.mem_takeWhile_imp h1
      simp only [decide_eq_true_eq] at this
      exact absurd this (not_lt.mpr hexp)
    · exact h2

/-! ## Claim theorems: commands table and cleanup -/

lemma ackUpdate_req_id (now : Int) (s : Bool) (e : Option String) (d : Option PyDict)
    (c : Command) : (ackUpdate now s e d c).req_id = c.req_id := rfl

lemma ackUpdate_idem (now : Int) (s : Bool) (e : Option String) (d : Option PyDict)
    (c : Command) :
    ackUpdate now s e d (ackUpdate now s e d c) = ackUpdate now s e d c := by
  unfold ackUpdate
  cases hd : c.dispatched_at <;> simp [hd]

/-- The commands table of the C1 scenario: one command dispatched at time 0. -/
def ackDemoTable : List Command :=
  (record_command_dispatch 0 "r1" "d1" "m1" "api" "start" [] []).2

/-- First ack of the C1 scenario, at time 1000 with the same arguments. -/
def ackDemoFirst : Option Command × List Command :=
  record_command_ack 1000 "r1" true none none ackDemoTable

/-- Second ack of the C1 scenario, at time 2000 with the same arguments. -/
def ackDemoSecond : Option Command × List Command :=
  record_command_ack 2000 "r1" true none none ackDemoFirst.2

/-- C1 counterexample: a second `record_command_ack` call for the same
req-id, with identical arguments but at a later clock reading, returns a
different record and leaves a different stored row than the first call did
(`acked_at` and `duration_ms` are overwritten) — so the operation is not
idempotent as claimed. -/
theorem second_ack_overwrites_row :
    ackDemoSecond.1 ≠ ackDemoFirst.1 ∧ ackDemoSecond.2 ≠ ackDemoFirst.2 := by decide

/-- C1 (amended): `record_command_ack` overwrites the matched row on every
call — status, `acked_at`, `success`, `error_message`, `response_details`
and `duration_ms` are recomputed from the call's arguments and clock — so a
repeated call returns the record stored by the first call and leaves the
table unchanged exactly when it passes the same arguments at the same clock
reading, which this theorem states for every table. -/
theorem record_command_ack_idem_same_call (now : Int) (req : String) (s : Bool)
    (e : Option String) (d : Option PyDict) (table : List Command) :
    record_command_ack now req s e d (record_command_ack now req s e d table).2
      = record_command_ack now req s e d table := by
  induction table with
  | nil => rfl
  | cons c rest ih =>
    by_cases hc : c.req_id = req
    · have h2 : (ackUpdate now s e d c).req_id = req := by
        rw [ackUpdate_req_id]; exact hc
      simp only [record_command_ack, if_pos hc, if_pos h2, ackUpdate_idem]
    · simp only [record_command_ack, if_neg hc]
      rw [ih]

/-- C10: an ack for a req-id with no row in the commands table returns
`none` and leaves the table unchanged — no row is inserted. -/
theorem record_command_ack_unknown_req_noop (now : Int) (req : String) (s : Bool)
    (e : Option String) (d : Option PyDict) (table : List Command)
    (h : ∀ c ∈ table, c.req_id ≠ req) :
    record_command_ack now req s e d table = (none, table) := by
  induction table with
  | nil => rfl
  | cons c rest ih =>
    have hc : c.req_id ≠ req := h c (List.mem_cons_self c rest)
    have hrest : ∀ x ∈ rest, x.req_id ≠ req := fun x hx => h x (List.mem_cons_of_mem c hx)
    simp only [record_command_ack, if_neg hc, ih hrest]

theorem record_command_ack_unknown_req_noop_witness :
    record_command_ack 5 "r9" true none none
        [⟨"r1", "d1", "m1", "api", "start", [], "dispatched", some 0, none, none, none,
          some [], none⟩]
      = (none,
        [⟨"r1", "d1", "m1", "api", "start", [], "dispatched", some 0, none, none, none,
          some [], none⟩]) :=
  record_command_ack_unknown_req_noop 5 "r9" true none none _ (by decide)

/-- C7 (code bug): `cleanup_old_records` as written always raises
`AttributeError` (db.py line 280 evaluates `datetime.timedelta` on the
datetime class) and therefore deletes nothing, while the intended cleanup —
as the spec specifies it — removes exactly the heartbeat, module-status and
event rows with `timestamp < start_of_today_utc - days` and never touches
the commands table. -/
theorem cleanup_crashes_and_intended_frame (now : Int) (days : Nat) (st : DBState) :
    cleanup_old_records now days st
        = Except.error "AttributeError: type object datetime has no attribute timedelta"
      ∧ (cleanup_old_records_intended now days st).commands = st.commands
      ∧ (∀ h, h ∈ (cleanup_old_records_intended now days st).heartbeats
            ↔ h ∈ st.heartbeats ∧ ¬ h.timestamp < cleanup_cutoff now days)
      ∧ (∀ m, m ∈ (cleanup_old_records_intended now days st).module_status
            ↔ m ∈ st.module_status ∧ ¬ m.timestamp < cleanup_cutoff now days)
      ∧ (∀ e, e ∈ (cleanup_old_records_intended now days st).events
            ↔ e ∈ st.events ∧ ¬ e.timestamp < cleanup_cutoff now days) := by
  refine ⟨rfl, rfl, ?_, ?_, ?_⟩ <;>
  · intro x
    simp [cleanup_old_records_intended, List.mem_filter]

/-! ## Claim theorems: dead-letter retry and backoff -/

/-- A persisted DLQ record for the C6 scenario, with no retries yet. -/
def dlqDemoMsg : DeadLetterMessage :=
  ⟨"dlq1", "/lab/device/D1/m/cmd", [("req_id", PyV.s "r2")], "timeout",
   "Command timed out", some "D1", some "m", some "r2", 0, 100, 100⟩

/-- A DLQ store holding just the C6 scenario record. -/
def dlqDemoStore : OD DeadLetterMessage := [("dlq1", dlqDemoMsg)]

/-- C6: for a persisted dead-letter record, an operator retry republishes
the record's original payload to its original topic and increments its
retry-count by one when the current count is below the configured max
(whose default is 3); when the incremented count would exceed the max the
retry is refused — nothing is republished, the store is unchanged and the
refusal reason is `retry_exhausted`. -/
theorem retry_message_spec (now max_retries : Int) (store : OD DeadLetterMessage)
    (dlq_id : String) (msg : DeadLetterMessage)
    (hfind : odFind? store dlq_id = some msg) :
    maxRetriesDefault = 3
    ∧ (msg.retry_count + 1 > max_retries →
        (retry_message now max_retries store dlq_id).success = false
        ∧ (retry_message now max_retries store dlq_id).published = none
        ∧ (retry_message now max_retries store dlq_id).refusal = some "retry_exhausted"
        ∧ (retry_message now max_retries store dlq_id).store = store)
    ∧ (msg.retry_count < max_retries →
        (retry_message now max_retries store dlq_id).success = true
        ∧ (retry_message now max_retries store dlq_id).published
            = some (msg.original_topic, msg.payload)
        ∧ odFind? (retry_message now max_retries store dlq_id).store dlq_id
            = some { msg with retry_count := msg.retry_count + 1, last_failed_at := now }) := by
  refine ⟨rfl, ?_, ?_⟩
  · intro hge
    have hge2 : msg.retry_count ≥ max_retries := by omega
    unfold retry_message
    simp [hfind, if_pos hge2]
  · intro hlt
    have hnge : ¬ msg.retry_count ≥ max_retries := not_le.mpr hlt
    unfold retry_message
    simp [hfind, hnge, odFind?_odSet_self]

theorem retry_message_spec_witness :
    (retry_message 7 3 dlqDemoStore "dlq1").success = true :=
  ((retry_message_spec 7 3 dlqDemoStore "dlq1" dlqDemoMsg (by decide)).2.2 (by decide)).1

/-- C8: for every retry configuration with non-negative parameters and
every attempt `n ≥ 1`, the backoff delay equals
`min(base_delay * exponential_base ^ (n - 1), max_delay)` when jitter is
disabled; with jitter enabled, for every jitter draw `j` within
`plus-minus jitter_factor * delay`, the result (clamped at zero) lies
between the delay minus and the delay plus `jitter_factor * delay`. -/
theorem calculate_delay_spec (cfg : RetryConfig) (n : Nat) (j : ℚ)
    (hn : 1 ≤ n) (hb : 0 ≤ cfg.base_delay) (hm : 0 ≤ cfg.max_delay)
    (he : 0 ≤ cfg.exponential_base) (hf : 0 ≤ cfg.jitter_factor)
    (hj : |j| ≤ cfg.jitter_factor * rawDelay cfg n) :
    (cfg.jitter = false → calculate_delay cfg n j = rawDelay cfg n)
    ∧ (cfg.jitter = true →
        rawDelay cfg n - cfg.jitter_factor * rawDelay cfg n ≤ calculate_delay cfg n j
        ∧ calculate_delay cfg n j ≤ rawDelay cfg n + cfg.jitter_factor * rawDelay cfg n) := by
  have hd : 0 ≤ rawDelay cfg n := le_min (mul_nonneg hb (pow_nonneg he _)) hm
  obtain ⟨hj1, hj2⟩ := abs_le.mp hj
  constructor
  · intro hoff
    unfold calculate_delay
    rw [hoff]
    simp
  · intro hon
    unfold calculate_delay
    rw [hon]
    simp only [if_true]
    constructor
    · exact le_trans (by linarith) (le_max_right 0 (rawDelay cfg n + j))
    · apply max_le
      · have := mul_nonneg hf hd
        linarith
      · linarith

/-- The retry configuration of the C8 scenario. -/
def retryDemoConfig : RetryConfig := ⟨3, 1, 60, 2, true, 1 / 10⟩

theorem calculate_delay_spec_witness :
    rawDelay retryDemoConfig 3 - retryDemoConfig.jitter_factor * rawDelay retryDemoConfig 3
      ≤ calculate_delay retryDemoConfig 3 0 :=
  ((calculate_delay_spec retryDemoConfig 3 0 (by norm_num)
      (by norm_num [retryDemoConfig]) (by norm_num [retryDemoConfig])
      (by norm_num [retryDemoConfig]) (by norm_num [retryDemoConfig])
      (by norm_num [retryDemoConfig, rawDelay])).2 rfl).1

/-! ## Claim theorems: params-size validation -/

lemma flatten_replicate_singleton {α : Type} (x : α) :
    ∀ n : Nat, (List.replicate n [x]).flatten = List.replicate n x := by
  intro n
  induction n with
  | zero => rfl
  | succ k ih => simp [List.replicate_succ, ih]

lemma jsonEscape_replicate_a (n : Nat) :
    jsonEscape (List.replicate n 'a') = List.replicate n 'a' := by
  unfold jsonEscape
  rw [List.map_replicate, show escapeChar 'a' = ['a'] from by decide,
      flatten_replicate_singleton]

lemma serializedSize_singleton_obj (n : Nat) :
    serializedSize (Json.obj [("k".data, Json.s (List.replicate n 'a'))]) = n + 9 := by
  unfold serializedSize
  simp only [dumps, dumpsObj]
  rw [jsonEscape_replicate_a, show jsonEscape "k".data = ['k'] from by decide]
  simp only [List.length_cons, List.length_append, List.length_replicate,
    List.length_singleton, List.length_nil]
  omega

/-- C9: the command-envelope params validator accepts a map whose JSON
serialization is exactly 64 KiB (65536 bytes) and rejects one of
64 KiB plus one byte; in general it accepts a params map exactly when the
serialized size is at most 64 KiB. -/
theorem params_size_boundary :
    serializedSize params64 = 65536
    ∧ validate_params_size params64 = Except.ok params64
    ∧ serializedSize params64p1 = 65537
    ∧ validate_params_size params64p1 = Except.error "Params too large (>64KB)"
    ∧ ∀ v : Json, validate_params_size v = Except.ok v ↔ serializedSize v ≤ 65536 := by
  have h64 : serializedSize params64 = 65536 := by
    unfold params64
    rw [serializedSize_singleton_obj]
  have h65 : serializedSize params64p1 = 65537 := by
    unfold params64p1
    rw [serializedSize_singleton_obj]
  refine ⟨h64, ?_, h65, ?_, ?_⟩
  · unfold validate_params_size
    rw [h64]
    norm_num
  · unfold validate_params_size
    rw [h65]
    norm_num
  · intro v
    unfold validate_params_size
    by_cases h : serializedSize v > 64 * 1024
    · rw [if_pos h]
      constructor
      · intro hc
        exact absurd hc (by simp)
      · intro hle
        exact absurd hle (by omega)
    · rw [if_neg h]
      constructor
      · intro _
        omega
      · intro _
        rfl
